import Mathlib

/-!
# Verification of the `digitalsingapore` JSON validator

Shallow embedding of `src/web dev coursework 2/validator.js`:

* `Value` models the JavaScript values that can reach the validator
  (JSON values plus `undefined` and function values).
* `typeOf` embeds the helper `typeOf` (null check, `Array.isArray`, then
  the native `typeof` tag).
* `SchemaG` models schema description objects; the hook type is a
  parameter so that the same shape serves the pure embedding
  (`Schema`, hooks are `Value → CustomOut`) and a state-instrumented
  embedding used to verify statelessness.
* `validateAgainstSchema` embeds the recursive matcher.  The host regex
  engine (`new RegExp(p).test(s)`) is passed in as an uninterpreted
  function `rtest : String → String → Bool`.
* `validateAndRender` embeds the orchestrator's behaviour after the
  point where the fetch outcome is known, recording DOM effects
  (panel, mount content) and render-callback invocations as data.
-/

namespace DSValidator

/-- JavaScript values reaching the validator: JSON values plus
`undefined` and function values. -/
inductive Value where
  | null
  | undef
  | bool (b : Bool)
  | num (n : Int)
  | str (s : String)
  | arr (elems : List Value)
  | obj (fields : List (String × Value))
  | func

/-- Embeds `typeOf` from the source: `v === null` gives `"null"`,
`Array.isArray(v)` gives `"array"`, otherwise the native `typeof` tag
(so `undefined` yields `"undefined"`). -/
def typeOf : Value → String
  | .null => "null"
  | .arr _ => "array"
  | .undef => "undefined"
  | .bool _ => "boolean"
  | .num _ => "number"
  | .str _ => "string"
  | .obj _ => "object"
  | .func => "function"

/-- Outcome of invoking a custom hook: it returns a value or throws an
exception carrying a message (`e.message`). -/
inductive CustomOut where
  | ret (v : Value)
  | thrown (msg : String)

/-- Schema description objects, generic in the type `H` of the `custom`
hook.  `type` is `Option String` (absent = `undefined`); `properties`
and `required` model the JS objects/arrays directly (the source
defaults them to `{}`/`[]`); `items`, `minItems` and `pattern` are
optional as in the source. -/
inductive SchemaG (H : Type) where
  | mk (anyOf : Option (List (SchemaG H)))
       (type : Option String)
       (properties : List (String × SchemaG H))
       (required : List String)
       (custom : Option H)
       (items : Option (SchemaG H))
       (minItems : Option Nat)
       (pattern : Option String)

/-- Pure-hook schemas: the hook takes the node's data and either
returns a value or throws. -/
abbrev Schema := SchemaG (Value → CustomOut)

/-- The empty schema `{}` used as the default for `schema.items`. -/
def SchemaG.empty {H : Type} : SchemaG H := .mk none none [] [] none none none none

def SchemaG.anyOf {H : Type} : SchemaG H → Option (List (SchemaG H))
  | .mk a _ _ _ _ _ _ _ => a

def SchemaG.type {H : Type} : SchemaG H → Option String
  | .mk _ t _ _ _ _ _ _ => t

/-- Embeds `path ? `${path}: ${msg}` : msg`, the message prefixing done
by `addE`/`addW` in the source. -/
def addMsg (path msg : String) : String :=
  if path = "" then msg else path ++ ": " ++ msg

/-- Embeds `Object.entries(data || {})`: fields of an object; `null`/`undefined`
(and every non-object, which the type guard makes unreachable in
context) contribute no entries. -/
def Value.entriesJS : Value → List (String × Value)
  | .obj fs => fs
  | _ => []

/-- Embeds the `(data || [])` element list: elements of an array; anything else
(unreachable after the type guard except `null`/`undefined`)
contributes no elements. -/
def Value.elemsJS : Value → List Value
  | .arr xs => xs
  | _ => []

/-- The string content of a string value (the pattern check only runs
after the type guard has established the data is a string). -/
def Value.strJS : Value → String
  | .str s => s
  | _ => ""

/-- Embeds `k in (data || {})` for the plain objects the validator sees. -/
def Value.hasKey (data : Value) (k : String) : Bool :=
  data.entriesJS.any (fun p => p.1 == k)

/-- Embeds the `props[k]` lookup in `schema.properties`; `if (!childSchema) continue`
corresponds to the `none` case. -/
def lookupProp {H : Type} (props : List (String × SchemaG H)) (k : String) :
    Option (SchemaG H) :=
  (props.find? (fun p => p.1 == k)).map (fun p => p.2)

/-- The result of one validation call: the `errors` and `warnings`
string arrays. -/
structure VResult where
  errors : List String
  warnings : List String
deriving DecidableEq

/-- Embeds `results.forEach((r, i) => r.errors.forEach((e) => addW(...)))` in the
failing `anyOf` branch: every alternative's errors, index-prefixed and
path-prefixed. -/
def anyOfWarnings (path : String) : List VResult → Nat → List String
  | [], _ => []
  | r :: rest, i =>
      r.errors.map (fun e => addMsg path ("anyOf[" ++ toString i ++ "] → " ++ e))
        ++ anyOfWarnings path rest (i + 1)

theorem typeOf_eq_object {d : Value} (h : typeOf d = "object") :
    ∃ fs, d = .obj fs := by
  cases d <;> simp [typeOf] at h ⊢

theorem typeOf_eq_array {d : Value} (h : typeOf d = "array") :
    ∃ xs, d = .arr xs := by
  cases d <;> simp [typeOf] at h ⊢

/-- Embeds `schema.required.forEach((k) => { if (!(k in (data || {}))) addE(...) })`:
one missing-key error per required key absent from the data. -/
def missingKeyMsgs (path : String) (req : List String) (data : Value) : List String :=
  (req.filter (fun k => !(data.hasKey k))).map
    (fun k => addMsg path ("Missing required key \"" ++ k ++ "\"."))

/-- The custom-hook part of the object branch: a non-empty returned
string becomes an error; a thrown exception becomes a
`Custom validator threw:` error (the `try`/`catch` in the source). -/
def customOutMsgs (path : String) (custom? : Option (Value → CustomOut))
    (data : Value) : List String :=
  match custom? with
  | some hook =>
    match hook data with
    | .ret (.str m) => if m ≠ "" then [addMsg path m] else []
    | .ret _ => []
    | .thrown m => [addMsg path ("Custom validator threw: " ++ m)]
  | none => []

/-- The `minItems` check of the array branch. -/
def minItemsMsgs (path : String) (minItems? : Option Nat) (len : Nat) : List String :=
  match minItems? with
  | some m =>
    if len < m then
      [addMsg path ("Array has " ++ toString len ++ " items; expected at least "
        ++ toString m ++ ".")]
    else []
  | none => []

mutual

/-- Embeds `validateAgainstSchema(data, schema, path)` from the source.
`rtest p s` stands for `new RegExp(p).test(s)`. -/
def validateAgainstSchema (rtest : String → String → Bool) (data : Value)
    (schema : Schema) (path : String) : VResult :=
  match schema with
  | .mk anyOf? ty props req custom? items? minItems? pat? =>
    match anyOf? with
    | some alts =>
        let results := validateAlts rtest data alts path
        if results.any (fun r => r.errors.isEmpty) then
          ⟨[], ((results.find? (fun r => r.errors.isEmpty)).getD ⟨[], []⟩).warnings⟩
        else
          ⟨[addMsg path "Value must match one of the allowed shapes."],
            anyOfWarnings path results 0⟩
    | none =>
      let t := typeOf data
      match ty with
      | none => ⟨[], []⟩
      | some s =>
        if hmis : s ≠ "" ∧ s ≠ t then
          ⟨[addMsg path ("Expected type \"" ++ s ++ "\" but got \"" ++ t ++ "\".")], []⟩
        else if hobj : s = "object" then
          let children := validateEntries rtest data.entriesJS props path
          ⟨missingKeyMsgs path req data ++ children.errors
             ++ customOutMsgs path custom? data,
           children.warnings⟩
        else if harr : s = "array" then
          let children := validateItems rtest data.elemsJS (items?.getD .empty) path 0
          ⟨children.errors ++ minItemsMsgs path minItems? data.elemsJS.length,
           children.warnings⟩
        else if hstr : s = "string" then
          match pat? with
          | some p =>
            if p ≠ "" ∧ ¬ rtest p data.strJS then
              ⟨[addMsg path ("String does not match pattern " ++ p ++ ".")], []⟩
            else ⟨[], []⟩
          | none => ⟨[], []⟩
        else ⟨[], []⟩
termination_by (sizeOf data, sizeOf schema)
decreasing_by
  · -- recursion into the `anyOf` alternatives: the schema shrinks
    apply Prod.Lex.right
    simp
    all_goals omega
  · -- recursion into the property schemas: the data shrinks
    push_neg at hmis
    obtain ⟨fs, rfl⟩ := typeOf_eq_object (show typeOf data = "object" by
      have hst := hmis (by simp [hobj])
      simp only [hobj] at hst
      exact hst.symm)
    apply Prod.Lex.left
    simp [Value.entriesJS]
    all_goals omega
  · -- recursion into the array elements: the data shrinks
    push_neg at hmis
    obtain ⟨xs, rfl⟩ := typeOf_eq_array (show typeOf data = "array" by
      have hst := hmis (by simp [harr])
      simp only [harr] at hst
      exact hst.symm)
    apply Prod.Lex.left
    simp [Value.elemsJS]
    all_goals omega

/-- Embeds `schema.anyOf.map((s) => validateAgainstSchema(data, s, path))`. -/
def validateAlts (rtest : String → String → Bool) (data : Value)
    (alts : List Schema) (path : String) : List VResult :=
  match alts with
  | [] => []
  | s :: rest =>
      validateAgainstSchema rtest data s path :: validateAlts rtest data rest path
termination_by (sizeOf data, sizeOf alts)
decreasing_by
  · apply Prod.Lex.right
    simp
    all_goals omega
  · apply Prod.Lex.right
    simp
    all_goals omega

/-- The `for (const [k, v] of Object.entries(data || {}))` loop: validate
each present key against its property schema (skipping keys without
one) and accumulate errors and warnings in order. -/
def validateEntries (rtest : String → String → Bool)
    (entries : List (String × Value)) (props : List (String × Schema))
    (path : String) : VResult :=
  match entries with
  | [] => ⟨[], []⟩
  | (k, v) :: rest =>
      let head : VResult :=
        match lookupProp props k with
        | some cs =>
            validateAgainstSchema rtest v cs (if path = "" then k else path ++ "." ++ k)
        | none => ⟨[], []⟩
      let tail := validateEntries rtest rest props path
      ⟨head.errors ++ tail.errors, head.warnings ++ tail.warnings⟩
termination_by (sizeOf entries, sizeOf props)
decreasing_by
  · apply Prod.Lex.left
    simp
    all_goals omega
  · apply Prod.Lex.left
    simp
    all_goals omega

/-- The `(data || []).forEach((item, i) => ...)` loop: validate each
element against the item schema at path `path[i]`. -/
def validateItems (rtest : String → String → Bool) (elems : List Value)
    (isch : Schema) (path : String) (i : Nat) : VResult :=
  match elems with
  | [] => ⟨[], []⟩
  | x :: rest =>
      let head := validateAgainstSchema rtest x isch (path ++ "[" ++ toString i ++ "]")
      let tail := validateItems rtest rest isch path (i + 1)
      ⟨head.errors ++ tail.errors, head.warnings ++ tail.warnings⟩
termination_by (sizeOf elems, sizeOf isch)
decreasing_by
  · apply Prod.Lex.left
    simp
    all_goals omega
  · apply Prod.Lex.left
    simp
    all_goals omega

end

/-! ## The fetch–validate–render orchestrator

`validateAndRender` in the source is asynchronous and effectful; we
embed it as a pure function from the outcome of the fetch/decode phase
(and of the caller's render callback) to a record of its observable
effects: the validation panel shown, the render-callback invocations,
and the HTML written to the fallback mount. -/

/-- Outcome of `await fetch(url); res.json()`: a non-ok HTTP status, a
decode (or network) failure carrying the exception message, or the
decoded JSON value. -/
inductive FetchOutcome where
  | httpFail (status : Nat)
  | decodeFail (msg : String)
  | ok (json : Value)

/-- Observable effects of one `validateAndRender` call. -/
structure PageOutcome where
  /-- The `showValidationPanel(url, errors, warnings)` invocation, if reached. -/
  panel : Option (String × List String × List String)
  /-- Arguments of the render-callback invocations, in order. -/
  renderCalls : List Value
  /-- HTML written to the error mount, when an id was given and the
  element exists. -/
  mountHtml : Option String

/-- Embeds `url.replace(/\.json$/, '')`. -/
def stripJsonExt (url : String) : String :=
  if url.endsWith ".json" then url.dropRight 5 else url

/-- The `catch` branch: `Failed to load <b>url</b>: e.message` written to
the mount when `mountOnErrorId` is given and the element exists. -/
def failMount (url msg : String) (mountOnErrorId : Option String)
    (mountExists : String → Bool) : Option String :=
  match mountOnErrorId with
  | some id =>
      if mountExists id then
        some ("<div class=\"bg-red-100 text-red-700 p-4 rounded\">Failed to load <b>"
          ++ url ++ "</b>: " ++ msg ++ "</div>")
      else none
  | none => none

/-- The validation-failure branch: message written to the mount. -/
def invalidMount (url : String) (mountOnErrorId : Option String)
    (mountExists : String → Bool) : Option String :=
  match mountOnErrorId with
  | some id =>
      if mountExists id then
        some ("<div class=\"bg-red-100 text-red-700 p-4 rounded\">Validation failed for <b>"
          ++ url ++ "</b>. See details above.</div>")
      else none
  | none => none

/-- Embeds `validateAndRender({url, schema, mountOnErrorId, render})`.
`fetched` is the outcome of steps 1–2 (fetch and JSON decode);
`renderFails v` is `some msg` when the caller's render callback would
throw an exception with message `msg` on input `v`. -/
def validateAndRender (rtest : String → String → Bool)
    (fetched : FetchOutcome) (url : String) (schema : Schema)
    (mountOnErrorId : Option String) (mountExists : String → Bool)
    (renderFails : Value → Option String) : PageOutcome :=
  match fetched with
  | .httpFail status =>
      -- `throw new Error(`${url} HTTP ${status}`)`, caught at top level
      ⟨none, [], failMount url (url ++ " HTTP " ++ toString status) mountOnErrorId mountExists⟩
  | .decodeFail msg =>
      ⟨none, [], failMount url msg mountOnErrorId mountExists⟩
  | .ok json =>
      let r := validateAgainstSchema rtest json schema (stripJsonExt url)
      if r.errors.isEmpty then
        -- `await render(json)`; a throwing render is caught at top level
        match renderFails json with
        | some msg => ⟨some (url, r.errors, r.warnings), [json],
            failMount url msg mountOnErrorId mountExists⟩
        | none => ⟨some (url, r.errors, r.warnings), [json], none⟩
      else
        ⟨some (url, r.errors, r.warnings), [],
          invalidMount url mountOnErrorId mountExists⟩

/-! ## State-instrumented embedding

JavaScript custom hooks are arbitrary functions and may read or write
ambient state.  To verify that `validateAgainstSchema` itself is
deterministic and stateless we re-embed it with an explicit world
state `σ` threaded through every hook invocation (the only effectful
operation in the function's body).  The code is the same source
function; only the hook calling convention differs. -/

/-- A custom hook over an explicit world state. -/
abbrev HookSt (σ : Type) := Value → σ → CustomOut × σ

/-- State-threaded form of the custom-hook check of the object branch. -/
def customOutMsgsSt {σ : Type} (path : String) (custom? : Option (HookSt σ))
    (data : Value) (st : σ) : List String × σ :=
  match custom? with
  | some hook =>
    let r := hook data st
    (match r.1 with
     | .ret (.str m) => if m ≠ "" then [addMsg path m] else []
     | .ret _ => []
     | .thrown m => [addMsg path ("Custom validator threw: " ++ m)],
     r.2)
  | none => ([], st)

mutual

/-- Version of `validateAgainstSchema` with the world state of the hooks made
explicit; identical to the pure embedding except that hook calls
thread `σ`. -/
def validateAgainstSchemaSt {σ : Type} (rtest : String → String → Bool) (data : Value)
    (schema : SchemaG (HookSt σ)) (path : String) (st : σ) : VResult × σ :=
  match schema with
  | .mk anyOf? ty props req custom? items? minItems? pat? =>
    match anyOf? with
    | some alts =>
        let rs := validateAltsSt rtest data alts path st
        if rs.1.any (fun r => r.errors.isEmpty) then
          (⟨[], ((rs.1.find? (fun r => r.errors.isEmpty)).getD ⟨[], []⟩).warnings⟩, rs.2)
        else
          (⟨[addMsg path "Value must match one of the allowed shapes."],
            anyOfWarnings path rs.1 0⟩, rs.2)
    | none =>
      let t := typeOf data
      match ty with
      | none => (⟨[], []⟩, st)
      | some s =>
        if hmis : s ≠ "" ∧ s ≠ t then
          (⟨[addMsg path ("Expected type \"" ++ s ++ "\" but got \"" ++ t ++ "\".")], []⟩,
            st)
        else if hobj : s = "object" then
          let children := validateEntriesSt rtest data.entriesJS props path st
          let cm := customOutMsgsSt path custom? data children.2
          (⟨missingKeyMsgs path req data ++ children.1.errors ++ cm.1,
            children.1.warnings⟩, cm.2)
        else if harr : s = "array" then
          let children := validateItemsSt rtest data.elemsJS (items?.getD .empty) path 0 st
          (⟨children.1.errors ++ minItemsMsgs path minItems? data.elemsJS.length,
            children.1.warnings⟩, children.2)
        else if hstr : s = "string" then
          ((match pat? with
            | some p =>
              if p ≠ "" ∧ ¬ rtest p data.strJS then
                ⟨[addMsg path ("String does not match pattern " ++ p ++ ".")], []⟩
              else ⟨[], []⟩
            | none => ⟨[], []⟩), st)
        else (⟨[], []⟩, st)
termination_by (sizeOf data, sizeOf schema)
decreasing_by
  · apply Prod.Lex.right
    simp
    all_goals omega
  · push_neg at hmis
    obtain ⟨fs, rfl⟩ := typeOf_eq_object (show typeOf data = "object" by
      have hst := hmis (by simp [hobj])
      simp only [hobj] at hst
      exact hst.symm)
    apply Prod.Lex.left
    simp [Value.entriesJS]
    all_goals omega
  · push_neg at hmis
    obtain ⟨xs, rfl⟩ := typeOf_eq_array (show typeOf data = "array" by
      have hst := hmis (by simp [harr])
      simp only [harr] at hst
      exact hst.symm)
    apply Prod.Lex.left
    simp [Value.elemsJS]
    all_goals omega

/-- State-threaded `anyOf` evaluation, in list order. -/
def validateAltsSt {σ : Type} (rtest : String → String → Bool) (data : Value)
    (alts : List (SchemaG (HookSt σ))) (path : String) (st : σ) :
    List VResult × σ :=
  match alts with
  | [] => ([], st)
  | s :: rest =>
      let r := validateAgainstSchemaSt rtest data s path st
      let rs := validateAltsSt rtest data rest path r.2
      (r.1 :: rs.1, rs.2)
termination_by (sizeOf data, sizeOf alts)
decreasing_by
  · apply Prod.Lex.right
    simp
    all_goals omega
  · apply Prod.Lex.right
    simp
    all_goals omega

/-- State-threaded properties loop. -/
def validateEntriesSt {σ : Type} (rtest : String → String → Bool)
    (entries : List (String × Value)) (props : List (String × SchemaG (HookSt σ)))
    (path : String) (st : σ) : VResult × σ :=
  match entries with
  | [] => (⟨[], []⟩, st)
  | (k, v) :: rest =>
      let head : VResult × σ :=
        match lookupProp props k with
        | some cs =>
            validateAgainstSchemaSt rtest v cs
              (if path = "" then k else path ++ "." ++ k) st
        | none => (⟨[], []⟩, st)
      let tail := validateEntriesSt rtest rest props path head.2
      (⟨head.1.errors ++ tail.1.errors, head.1.warnings ++ tail.1.warnings⟩, tail.2)
termination_by (sizeOf entries, sizeOf props)
decreasing_by
  · apply Prod.Lex.left
    simp
    all_goals omega
  · apply Prod.Lex.left
    simp
    all_goals omega

/-- State-threaded items loop. -/
def validateItemsSt {σ : Type} (rtest : String → String → Bool) (elems : List Value)
    (isch : SchemaG (HookSt σ)) (path : String) (i : Nat) (st : σ) : VResult × σ :=
  match elems with
  | [] => (⟨[], []⟩, st)
  | x :: rest =>
      let head := validateAgainstSchemaSt rtest x isch
        (path ++ "[" ++ toString i ++ "]") st
      let tail := validateItemsSt rtest rest isch path (i + 1) head.2
      (⟨head.1.errors ++ tail.1.errors, head.1.warnings ++ tail.1.warnings⟩, tail.2)
termination_by (sizeOf elems, sizeOf isch)
decreasing_by
  · apply Prod.Lex.left
    simp
    all_goals omega
  · apply Prod.Lex.left
    simp
    all_goals omega

end

mutual

/-- Replace every custom hook in a schema (the schema shape is
unchanged). -/
def SchemaG.mapHooks {H₁ H₂ : Type} (f : H₁ → H₂) : SchemaG H₁ → SchemaG H₂
  | .mk anyOf? ty props req custom? items? minItems? pat? =>
      .mk (match anyOf? with
           | some alts => some (mapHooksList f alts)
           | none => none)
          ty (mapHooksProps f props) req (custom?.map f)
          (match items? with
           | some s => some (s.mapHooks f)
           | none => none)
          minItems? pat?
termination_by s => sizeOf s

/-- Map over the hooks of a list of alternatives. -/
def mapHooksList {H₁ H₂ : Type} (f : H₁ → H₂) : List (SchemaG H₁) → List (SchemaG H₂)
  | [] => []
  | s :: rest => s.mapHooks f :: mapHooksList f rest
termination_by l => sizeOf l

/-- Map over the hooks of a property map. -/
def mapHooksProps {H₁ H₂ : Type} (f : H₁ → H₂) :
    List (String × SchemaG H₁) → List (String × SchemaG H₂)
  | [] => []
  | (k, s) :: rest => (k, s.mapHooks f) :: mapHooksProps f rest
termination_by l => sizeOf l

end

/-- A pure hook, seen as a stateful one that ignores and preserves the
world state. -/
def liftHook (σ : Type) (h : Value → CustomOut) : HookSt σ :=
  fun v st => (h v, st)

/-! ## Shape lemmas for the individual branches of the matcher -/

theorem validateAlts_eq_map (rtest : String → String → Bool) (data : Value)
    (alts : List Schema) (path : String) :
    validateAlts rtest data alts path
      = alts.map (fun s => validateAgainstSchema rtest data s path) := by
  induction alts with
  | nil => simp [validateAlts]
  | cons s rest ih => simp [validateAlts, ih]

theorem validate_anyOf_def (rtest : String → String → Bool) (data : Value)
    (alts : List Schema) (ty : Option String) (props : List (String × Schema))
    (req : List String) (custom? : Option (Value → CustomOut))
    (items? : Option Schema) (minItems? : Option Nat) (pat? : Option String)
    (path : String) :
    validateAgainstSchema rtest data
        (.mk (some alts) ty props req custom? items? minItems? pat?) path
      = (let results := validateAlts rtest data alts path
         if results.any (fun r => r.errors.isEmpty) then
           ⟨[], ((results.find? (fun r => r.errors.isEmpty)).getD ⟨[], []⟩).warnings⟩
         else
           ⟨[addMsg path "Value must match one of the allowed shapes."],
             anyOfWarnings path results 0⟩) := by
  rw [validateAgainstSchema]

theorem validate_anyOf_pass (rtest : String → String → Bool) (data : Value)
    (alts : List Schema) (ty : Option String) (props : List (String × Schema))
    (req : List String) (custom? : Option (Value → CustomOut))
    (items? : Option Schema) (minItems? : Option Nat) (pat? : Option String)
    (path : String) (r : VResult)
    (h : (validateAlts rtest data alts path).find? (fun x => x.errors.isEmpty) = some r) :
    validateAgainstSchema rtest data
        (.mk (some alts) ty props req custom? items? minItems? pat?) path
      = ⟨[], r.warnings⟩ := by
  rw [validate_anyOf_def]
  have hp : (fun (x : VResult) => x.errors.isEmpty) r = true :=
    @List.find?_some VResult (fun x => x.errors.isEmpty) r
      (validateAlts rtest data alts path) h
  have hany : (validateAlts rtest data alts path).any (fun x => x.errors.isEmpty) = true :=
    List.any_eq_true.mpr ⟨r, List.mem_of_find?_eq_some h, hp⟩
  simp [hany, h]

theorem validate_anyOf_fail (rtest : String → String → Bool) (data : Value)
    (alts : List Schema) (ty : Option String) (props : List (String × Schema))
    (req : List String) (custom? : Option (Value → CustomOut))
    (items? : Option Schema) (minItems? : Option Nat) (pat? : Option String)
    (path : String)
    (h : ∀ r ∈ validateAlts rtest data alts path, r.errors ≠ []) :
    validateAgainstSchema rtest data
        (.mk (some alts) ty props req custom? items? minItems? pat?) path
      = ⟨[addMsg path "Value must match one of the allowed shapes."],
          anyOfWarnings path (validateAlts rtest data alts path) 0⟩ := by
  rw [validate_anyOf_def]
  have hany : (validateAlts rtest data alts path).any (fun x => x.errors.isEmpty) = false := by
    rw [← Bool.not_eq_true, List.any_eq_true]
    rintro ⟨r, hr, hempty⟩
    exact h r hr (List.isEmpty_iff.mp hempty)
  simp [hany]

theorem validate_type_mismatch (rtest : String → String → Bool) (data : Value)
    (s : String) (props : List (String × Schema)) (req : List String)
    (custom? : Option (Value → CustomOut)) (items? : Option Schema)
    (minItems? : Option Nat) (pat? : Option String) (path : String)
    (h1 : s ≠ "") (h2 : s ≠ typeOf data) :
    validateAgainstSchema rtest data
        (.mk none (some s) props req custom? items? minItems? pat?) path
      = ⟨[addMsg path ("Expected type \"" ++ s ++ "\" but got \"" ++ typeOf data ++ "\".")],
          []⟩ := by
  rw [validateAgainstSchema.eq_def]
  simp only [dif_pos (And.intro h1 h2)]

theorem validate_object_eq (rtest : String → String → Bool) (data : Value)
    (props : List (String × Schema)) (req : List String)
    (custom? : Option (Value → CustomOut)) (items? : Option Schema)
    (minItems? : Option Nat) (pat? : Option String) (path : String)
    (h : typeOf data = "object") :
    validateAgainstSchema rtest data
        (.mk none (some "object") props req custom? items? minItems? pat?) path
      = ⟨missingKeyMsgs path req data
          ++ (validateEntries rtest data.entriesJS props path).errors
          ++ customOutMsgs path custom? data,
         (validateEntries rtest data.entriesJS props path).warnings⟩ := by
  rw [validateAgainstSchema.eq_def]
  have hcond : ¬(("object" : String) ≠ "" ∧ ("object" : String) ≠ typeOf data) := by
    rw [h]
    simp
  simp only [dif_neg hcond, dif_pos rfl]
  simp

theorem validate_array_eq (rtest : String → String → Bool) (data : Value)
    (props : List (String × Schema)) (req : List String)
    (custom? : Option (Value → CustomOut)) (items? : Option Schema)
    (minItems? : Option Nat) (pat? : Option String) (path : String)
    (h : typeOf data = "array") :
    validateAgainstSchema rtest data
        (.mk none (some "array") props req custom? items? minItems? pat?) path
      = ⟨(validateItems rtest data.elemsJS (items?.getD .empty) path 0).errors
          ++ minItemsMsgs path minItems? data.elemsJS.length,
         (validateItems rtest data.elemsJS (items?.getD .empty) path 0).warnings⟩ := by
  rw [validateAgainstSchema.eq_def]
  have hcond : ¬(("array" : String) ≠ "" ∧ ("array" : String) ≠ typeOf data) := by
    rw [h]
    simp
  have hobj : ¬(("array" : String) = "object") := by decide
  simp only [dif_neg hcond, dif_neg hobj, dif_pos rfl]
  simp

theorem validate_string_eq (rtest : String → String → Bool) (data : Value)
    (props : List (String × Schema)) (req : List String)
    (custom? : Option (Value → CustomOut)) (items? : Option Schema)
    (minItems? : Option Nat) (pat? : Option String) (path : String)
    (h : typeOf data = "string") :
    validateAgainstSchema rtest data
        (.mk none (some "string") props req custom? items? minItems? pat?) path
      = (match pat? with
         | some p =>
           if p ≠ "" ∧ ¬ rtest p data.strJS then
             ⟨[addMsg path ("String does not match pattern " ++ p ++ ".")], []⟩
           else ⟨[], []⟩
         | none => ⟨[], []⟩) := by
  rw [validateAgainstSchema.eq_def]
  have hcond : ¬(("string" : String) ≠ "" ∧ ("string" : String) ≠ typeOf data) := by
    rw [h]
    simp
  have h1 : ¬(("string" : String) = "object") := by decide
  have h2 : ¬(("string" : String) = "array") := by decide
  simp only [dif_neg hcond, dif_neg h1, dif_neg h2, dif_pos rfl]
  simp

theorem validate_other_eq (rtest : String → String → Bool) (data : Value)
    (s : String) (props : List (String × Schema)) (req : List String)
    (custom? : Option (Value → CustomOut)) (items? : Option Schema)
    (minItems? : Option Nat) (pat? : Option String) (path : String)
    (hmis : ¬(s ≠ "" ∧ s ≠ typeOf data)) (h1 : s ≠ "object") (h2 : s ≠ "array")
    (h3 : s ≠ "string") :
    validateAgainstSchema rtest data
        (.mk none (some s) props req custom? items? minItems? pat?) path
      = ⟨[], []⟩ := by
  rw [validateAgainstSchema.eq_def]
  simp only [dif_neg hmis, dif_neg h1, dif_neg h2, dif_neg h3]

theorem validateItems_eq (rtest : String → String → Bool) (xs : List Value)
    (isch : Schema) (path : String) : ∀ i : Nat,
    validateItems rtest xs isch path i
      = ⟨((xs.enumFrom i).map (fun q =>
            (validateAgainstSchema rtest q.2 isch
              (path ++ "[" ++ toString q.1 ++ "]")).errors)).flatten,
         ((xs.enumFrom i).map (fun q =>
            (validateAgainstSchema rtest q.2 isch
              (path ++ "[" ++ toString q.1 ++ "]")).warnings)).flatten⟩ := by
  induction xs with
  | nil => intro i; simp [validateItems]
  | cons x rest ih =>
      intro i
      rw [validateItems]
      simp [List.enumFrom_cons, ih]

theorem anyOfWarnings_eq (path : String) (results : List VResult) : ∀ i : Nat,
    anyOfWarnings path results i
      = ((results.enumFrom i).map (fun q =>
          q.2.errors.map (fun e =>
            addMsg path ("anyOf[" ++ toString q.1 ++ "] → " ++ e)))).flatten := by
  induction results with
  | nil => intro i; simp [anyOfWarnings]
  | cons r rest ih =>
      intro i
      rw [anyOfWarnings]
      simp [List.enumFrom_cons, ih]

theorem validateEntries_eq (rtest : String → String → Bool)
    (entries : List (String × Value)) (props : List (String × Schema))
    (path : String) :
    validateEntries rtest entries props path
      = ⟨(entries.map (fun kv =>
            match lookupProp props kv.1 with
            | some cs => (validateAgainstSchema rtest kv.2 cs
                (if path = "" then kv.1 else path ++ "." ++ kv.1)).errors
            | none => [])).flatten,
         (entries.map (fun kv =>
            match lookupProp props kv.1 with
            | some cs => (validateAgainstSchema rtest kv.2 cs
                (if path = "" then kv.1 else path ++ "." ++ kv.1)).warnings
            | none => [])).flatten⟩ := by
  induction entries with
  | nil => simp [validateEntries]
  | cons kv rest ih =>
      obtain ⟨k, v⟩ := kv
      rw [validateEntries]
      simp only [ih, List.map_cons, List.flatten_cons]
      cases lookupProp props k <;> simp

/-! ## Message-shape utilities -/

/-- Every message added through `addE`/`addW` starts with the current
path (vacuously so when the path is empty). -/
theorem addMsg_shape (path m : String) : ∃ t, addMsg path m = path ++ t := by
  by_cases h : path = ""
  · subst h
    exact ⟨m, rfl⟩
  · exact ⟨": " ++ m, by rw [addMsg, if_neg h, String.append_assoc]⟩

theorem shape_trans {m q path : String} (h1 : ∃ t, m = q ++ t)
    (h2 : ∃ u, q = path ++ u) : ∃ t, m = path ++ t := by
  obtain ⟨t, rfl⟩ := h1
  obtain ⟨u, rfl⟩ := h2
  exact ⟨u ++ t, by rw [String.append_assoc]⟩

theorem extendsSelf2 (p a b : String) : ∃ u, p ++ a ++ b = p ++ u :=
  ⟨a ++ b, by simp [String.append_assoc]⟩

theorem extendsSelf3 (p a b c : String) : ∃ u, p ++ a ++ b ++ c = p ++ u :=
  ⟨a ++ (b ++ c), by simp [String.append_assoc]⟩

/-! ## Concrete instances used by the claim witnesses -/

/-- A concrete stand-in for the host regex engine, used in witnesses
(no witness exercises the pattern check). -/
def rt0 : String → String → Bool := fun _ _ => true

/-- Schema `{type:"string"}`. -/
def schemaStr : Schema := .mk none (some "string") [] [] none none none none

/-- Schema `{type:"number"}`. -/
def schemaNum : Schema := .mk none (some "number") [] [] none none none none

/-- Schema `{anyOf:[{type:"string"},{type:"number"}]}`. -/
def schemaAny : Schema := .mk (some [schemaStr, schemaNum]) none [] [] none none none none

/-- Schema `{type:"array", items:{type:"number"}, minItems:2}`. -/
def schemaArr2 : Schema := .mk none (some "array") [] [] none (some schemaNum) (some 2) none

/-! ## Claims -/

/-- C1: after the fetch succeeds and the body decodes as JSON, the render
callback is invoked iff the Schema Matcher returns zero errors; when
invoked, it is invoked exactly once with the decoded JSON value, and
with a non-empty error list it is never invoked. -/
theorem claim1_render_iff_zero_errors (rtest : String → String → Bool)
    (json : Value) (url : String) (schema : Schema) (mountOnErrorId : Option String)
    (mountExists : String → Bool) (renderFails : Value → Option String) :
    (validateAndRender rtest (.ok json) url schema mountOnErrorId mountExists
        renderFails).renderCalls
      = if (validateAgainstSchema rtest json schema (stripJsonExt url)).errors.isEmpty
        then [json] else [] := by
  rw [validateAndRender]
  cases h : (validateAgainstSchema rtest json schema (stripJsonExt url)).errors.isEmpty
  · simp [h]
  · simp only [h, if_true]
    cases renderFails json <;> simp

/-- C3 (amended): when the schema has no `anyOf` and its `type` is a
non-empty tag differing from the computed tag of the data, the matcher
returns exactly the single type-mismatch error, no warnings, and
performs no further structural checks. -/
theorem claim3_type_mismatch_stops (rtest : String → String → Bool) (data : Value)
    (s : String) (props : List (String × Schema)) (req : List String)
    (custom? : Option (Value → CustomOut)) (items? : Option Schema)
    (minItems? : Option Nat) (pat? : Option String) (path : String)
    (h1 : s ≠ "") (h2 : s ≠ typeOf data) :
    validateAgainstSchema rtest data
        (.mk none (some s) props req custom? items? minItems? pat?) path
      = ⟨[addMsg path ("Expected type \"" ++ s ++ "\" but got \"" ++ typeOf data ++ "\".")],
          []⟩ :=
  validate_type_mismatch rtest data s props req custom? items? minItems? pat? path h1 h2

/-- Witness for C3: `{type:"number"}` against the string `"x"` at path
`"p"` yields exactly the type-mismatch error. -/
theorem claim3_witness :
    (("number" : String) ≠ "" ∧ ("number" : String) ≠ typeOf (Value.str "x"))
    ∧ validateAgainstSchema rt0 (.str "x")
        (.mk none (some "number") [] [] none none none none) "p"
      = ⟨["p: Expected type \"number\" but got \"string\"."], []⟩ :=
  ⟨⟨by decide, by decide⟩, by
    rw [claim3_type_mismatch_stops rt0 (.str "x") "number" [] [] none none none none "p"
      (by decide) (by decide)]
    decide⟩

/-- Counterexample to C3 as stated: with `anyOf` also present the
`anyOf` branch short-circuits, so a set-and-mismatched `type` produces
no error at all (here `{anyOf:[{}], type:"string"}` against `1`). -/
theorem claim3_counterexample :
    (SchemaG.type
        (SchemaG.mk (some [SchemaG.empty]) (some "string") [] [] none none none none
          : Schema) = some "string")
    ∧ ("string" : String) ≠ typeOf (Value.num 1)
    ∧ validateAgainstSchema rt0 (.num 1)
        (.mk (some [SchemaG.empty]) (some "string") [] [] none none none none) ""
      = ⟨[], []⟩ := by
  refine ⟨rfl, by decide, ?_⟩
  simp [validateAgainstSchema, validateAlts, SchemaG.empty]

/-- C5 (amended): the runtime type tag of JSON null is `"null"`, of an
absent (`undefined`) value `"undefined"` (not `"null"`), of an array
`"array"`, and of every other value its language-native tag. -/
theorem claim5_typeOf_tags :
    typeOf .null = "null" ∧ typeOf .undef = "undefined"
    ∧ (∀ xs, typeOf (.arr xs) = "array") ∧ (∀ fs, typeOf (.obj fs) = "object")
    ∧ (∀ s, typeOf (.str s) = "string") ∧ (∀ n, typeOf (.num n) = "number")
    ∧ (∀ b, typeOf (.bool b) = "boolean") ∧ typeOf .func = "function" :=
  ⟨rfl, rfl, fun _ => rfl, fun _ => rfl, fun _ => rfl, fun _ => rfl, fun _ => rfl, rfl⟩

/-- Counterexample to C5 as stated: an absent (`undefined`) value is
tagged `"undefined"`, not `"null"` (only `v === null` yields `"null"`). -/
theorem claim5_counterexample :
    typeOf Value.undef = "undefined" ∧ ("undefined" : String) ≠ "null" :=
  ⟨rfl, by decide⟩

/-- C2: when no `anyOf` alternative validates with zero errors, the
matcher returns exactly the single allowed-shapes error and, as
warnings, every alternative's errors prefixed with the alternative's
index (and the path, as all added messages are); no other check runs. -/
theorem claim2_anyOf_all_fail (rtest : String → String → Bool) (data : Value)
    (alts : List Schema) (ty : Option String) (props : List (String × Schema))
    (req : List String) (custom? : Option (Value → CustomOut))
    (items? : Option Schema) (minItems? : Option Nat) (pat? : Option String)
    (path : String)
    (h : ∀ s ∈ alts, (validateAgainstSchema rtest data s path).errors ≠ []) :
    validateAgainstSchema rtest data
        (.mk (some alts) ty props req custom? items? minItems? pat?) path
      = ⟨[addMsg path "Value must match one of the allowed shapes."],
          (((alts.map (fun s => validateAgainstSchema rtest data s path)).enum.map
            (fun q => q.2.errors.map (fun e =>
              addMsg path ("anyOf[" ++ toString q.1 ++ "] → " ++ e)))).flatten)⟩ := by
  rw [validate_anyOf_fail]
  · rw [anyOfWarnings_eq, validateAlts_eq_map]
    rfl
  · rw [validateAlts_eq_map]
    intro r hr
    obtain ⟨s, hs, rfl⟩ := List.mem_map.mp hr
    exact h s hs

/-- Witness for C2: `{anyOf:[{type:"string"},{type:"number"}]}` against
`true` yields one error and the two index-prefixed warnings. -/
theorem claim2_witness :
    (∀ s ∈ [schemaStr, schemaNum],
      (validateAgainstSchema rt0 (.bool true) s "").errors ≠ [])
    ∧ validateAgainstSchema rt0 (.bool true) schemaAny ""
      = ⟨["Value must match one of the allowed shapes."],
          ["anyOf[0] → Expected type \"string\" but got \"boolean\".",
           "anyOf[1] → Expected type \"number\" but got \"boolean\"."]⟩ := by
  have hfail : ∀ s ∈ [schemaStr, schemaNum],
      (validateAgainstSchema rt0 (.bool true) s "").errors ≠ [] := by
    intro s hs
    rcases List.mem_pair.mp hs with rfl | rfl <;>
      simp [validateAgainstSchema, schemaStr, schemaNum, typeOf, addMsg]
  refine ⟨hfail, ?_⟩
  have h2 := claim2_anyOf_all_fail rt0 (.bool true) [schemaStr, schemaNum] none [] []
    none none none none "" hfail
  rw [show schemaAny
      = .mk (some [schemaStr, schemaNum]) none [] [] none none none none from rfl, h2]
  simp [validateAgainstSchema, schemaStr, schemaNum, typeOf, addMsg]
  decide

/-- C6: when some `anyOf` alternative validates with zero errors, the
matcher returns zero errors and exactly the warnings of the first such
alternative in list order. -/
theorem claim6_anyOf_first_pass (rtest : String → String → Bool) (data : Value)
    (alts : List Schema) (ty : Option String) (props : List (String × Schema))
    (req : List String) (custom? : Option (Value → CustomOut))
    (items? : Option Schema) (minItems? : Option Nat) (pat? : Option String)
    (path : String) (r : VResult)
    (h : (alts.map (fun s => validateAgainstSchema rtest data s path)).find?
          (fun x => x.errors.isEmpty) = some r) :
    validateAgainstSchema rtest data
        (.mk (some alts) ty props req custom? items? minItems? pat?) path
      = ⟨[], r.warnings⟩ := by
  apply validate_anyOf_pass
  rw [validateAlts_eq_map]
  exact h

/-- Witness for C6: `{anyOf:[{type:"string"},{type:"number"}]}` against
`"ok"` yields zero errors and zero warnings. -/
theorem claim6_witness :
    ([schemaStr, schemaNum].map
        (fun s => validateAgainstSchema rt0 (.str "ok") s "")).find?
        (fun x => x.errors.isEmpty) = some ⟨[], []⟩
    ∧ validateAgainstSchema rt0 (.str "ok") schemaAny "" = ⟨[], []⟩ := by
  have hf : ([schemaStr, schemaNum].map
      (fun s => validateAgainstSchema rt0 (.str "ok") s "")).find?
      (fun x => x.errors.isEmpty) = some ⟨[], []⟩ := by
    simp [validateAgainstSchema, schemaStr, schemaNum, typeOf, rt0]
  refine ⟨hf, ?_⟩
  have h6 := claim6_anyOf_first_pass rt0 (.str "ok") [schemaStr, schemaNum] none [] []
    none none none none "" ⟨[], []⟩ hf
  rw [show schemaAny
      = .mk (some [schemaStr, schemaNum]) none [] [] none none none none from rfl, h6]

/-- C7: for an object-typed schema, one missing-key error is emitted for
each required key absent from the data, independently of
`schema.properties`; in particular `required:["a","b"]` against `{}`
gives exactly the two missing-key errors. -/
theorem claim7_missing_required_keys :
    (∀ (rtest : String → String → Bool) (fields : List (String × Value))
      (props : List (String × Schema)) (req : List String)
      (custom? : Option (Value → CustomOut)) (items? : Option Schema)
      (minItems? : Option Nat) (pat? : Option String) (path k : String),
      k ∈ req → (Value.obj fields).hasKey k = false →
      addMsg path ("Missing required key \"" ++ k ++ "\".")
        ∈ (validateAgainstSchema rtest (.obj fields)
            (.mk none (some "object") props req custom? items? minItems? pat?)
            path).errors)
    ∧ (∀ (rtest : String → String → Bool) (props : List (String × Schema))
      (items? : Option Schema) (minItems? : Option Nat) (pat? : Option String)
      (path : String),
      validateAgainstSchema rtest (.obj [])
          (.mk none (some "object") props ["a", "b"] none items? minItems? pat?) path
        = ⟨[addMsg path "Missing required key \"a\".",
            addMsg path "Missing required key \"b\"."], []⟩) := by
  constructor
  · intro rtest fields props req custom? items? minItems? pat? path k hk hkey
    rw [validate_object_eq rtest (.obj fields) props req custom? items? minItems? pat?
      path rfl]
    apply List.mem_append_left
    apply List.mem_append_left
    exact List.mem_map.mpr ⟨k, List.mem_filter.mpr ⟨hk, by simp [hkey]⟩, rfl⟩
  · intro rtest props items? minItems? pat? path
    rw [validate_object_eq rtest (.obj []) props ["a", "b"] none items? minItems? pat?
      path rfl]
    simp [missingKeyMsgs, customOutMsgs, Value.entriesJS, validateEntries, Value.hasKey]

/-- Witness for C7: key `"a"` is required and absent from `{}`, and its
missing-key error is among the returned errors. -/
theorem claim7_witness :
    ("a" ∈ ["a", "b"] ∧ (Value.obj []).hasKey "a" = false)
    ∧ addMsg "p" "Missing required key \"a\"."
        ∈ (validateAgainstSchema rt0 (.obj [])
            (.mk none (some "object") [] ["a", "b"] none none none none) "p").errors :=
  ⟨⟨by decide, by decide⟩,
    claim7_missing_required_keys.1 rt0 [] [] ["a", "b"] none none none none "p" "a"
      (by decide) (by decide)⟩

/-- C8: for an array-typed schema every element is validated against
`schema.items` (default `{}`) at path `path[i]`, and one length error is
emitted exactly when `minItems` is set and the count is below it; with
`{type:"array", items:{type:"number"}, minItems:2}`, `[1,"x"]` yields
only the type mismatch at `[1]` and `[1]` yields only the minItems
error. -/
theorem claim8_array_items_minItems :
    (∀ (rtest : String → String → Bool) (xs : List Value)
      (props : List (String × Schema)) (req : List String)
      (custom? : Option (Value → CustomOut)) (items? : Option Schema)
      (minItems? : Option Nat) (pat? : Option String) (path : String),
      validateAgainstSchema rtest (.arr xs)
          (.mk none (some "array") props req custom? items? minItems? pat?) path
        = ⟨((xs.enumFrom 0).map (fun q =>
              (validateAgainstSchema rtest q.2 (items?.getD .empty)
                (path ++ "[" ++ toString q.1 ++ "]")).errors)).flatten
            ++ minItemsMsgs path minItems? xs.length,
           ((xs.enumFrom 0).map (fun q =>
              (validateAgainstSchema rtest q.2 (items?.getD .empty)
                (path ++ "[" ++ toString q.1 ++ "]")).warnings)).flatten⟩)
    ∧ validateAgainstSchema rt0 (.arr [.num 1, .str "x"]) schemaArr2 ""
        = ⟨["[1]: Expected type \"number\" but got \"string\"."], []⟩
    ∧ validateAgainstSchema rt0 (.arr [.num 1]) schemaArr2 ""
        = ⟨["Array has 1 items; expected at least 2."], []⟩ := by
  refine ⟨?_, ?_, ?_⟩
  · intro rtest xs props req custom? items? minItems? pat? path
    rw [validate_array_eq rtest (.arr xs) props req custom? items? minItems? pat? path
      rfl]
    rw [show (Value.arr xs).elemsJS = xs from rfl, validateItems_eq]
  · simp [validateAgainstSchema, validateItems, schemaArr2, schemaNum, typeOf, addMsg,
      minItemsMsgs, Value.elemsJS]
    decide
  · simp [validateAgainstSchema, validateItems, schemaArr2, schemaNum, typeOf, addMsg,
      minItemsMsgs, Value.elemsJS]
    decide

/-- C4: for an object-typed schema with a custom hook, a non-empty
returned string is appended to the errors (path-prefixed), and a thrown
exception is caught and appended as a `Custom validator threw:` error,
the call returning normally in both cases. -/
theorem claim4_custom_hook (rtest : String → String → Bool)
    (fields : List (String × Value)) (props : List (String × Schema))
    (req : List String) (items? : Option Schema) (minItems? : Option Nat)
    (pat? : Option String) (path : String) (hook : Value → CustomOut) :
    (∀ m, hook (.obj fields) = .thrown m →
      validateAgainstSchema rtest (.obj fields)
          (.mk none (some "object") props req (some hook) items? minItems? pat?) path
        = ⟨(validateAgainstSchema rtest (.obj fields)
              (.mk none (some "object") props req none items? minItems? pat?)
              path).errors
            ++ [addMsg path ("Custom validator threw: " ++ m)],
           (validateAgainstSchema rtest (.obj fields)
              (.mk none (some "object") props req none items? minItems? pat?)
              path).warnings⟩)
    ∧ (∀ m, hook (.obj fields) = .ret (.str m) → m ≠ "" →
      validateAgainstSchema rtest (.obj fields)
          (.mk none (some "object") props req (some hook) items? minItems? pat?) path
        = ⟨(validateAgainstSchema rtest (.obj fields)
              (.mk none (some "object") props req none items? minItems? pat?)
              path).errors
            ++ [addMsg path m],
           (validateAgainstSchema rtest (.obj fields)
              (.mk none (some "object") props req none items? minItems? pat?)
              path).warnings⟩) := by
  constructor
  · intro m hm
    rw [validate_object_eq rtest (.obj fields) props req (some hook) items? minItems?
      pat? path rfl]
    rw [validate_object_eq rtest (.obj fields) props req none items? minItems?
      pat? path rfl]
    simp [customOutMsgs, hm]
  · intro m hm hne
    rw [validate_object_eq rtest (.obj fields) props req (some hook) items? minItems?
      pat? path rfl]
    rw [validate_object_eq rtest (.obj fields) props req none items? minItems?
      pat? path rfl]
    simp [customOutMsgs, hm, hne]

/-- Witness for C4: a hook that throws `"boom"` adds exactly the caught
`Custom validator threw: boom` error. -/
theorem claim4_witness :
    ((fun _ => CustomOut.thrown "boom") (Value.obj []) = CustomOut.thrown "boom")
    ∧ validateAgainstSchema rt0 (.obj [])
        (.mk none (some "object") [] [] (some (fun _ => .thrown "boom"))
          none none none) ""
      = ⟨(validateAgainstSchema rt0 (.obj [])
            (.mk none (some "object") [] [] none none none none) "").errors
          ++ [addMsg "" ("Custom validator threw: " ++ "boom")],
         (validateAgainstSchema rt0 (.obj [])
            (.mk none (some "object") [] [] none none none none) "").warnings⟩ :=
  ⟨rfl,
    (claim4_custom_hook rt0 [] [] [] none none none "" (fun _ => .thrown "boom")).1
      "boom" rfl⟩

/-! ## Path-prefix invariant (C10) -/

/-- All messages of a result begin with `path`. -/
def MsgsFrom (r : VResult) (path : String) : Prop :=
  (∀ m ∈ r.errors, ∃ t, m = path ++ t) ∧ (∀ m ∈ r.warnings, ∃ t, m = path ++ t)

theorem missingKeyMsgs_shape (path : String) (req : List String) (data : Value) :
    ∀ m ∈ missingKeyMsgs path req data, ∃ t, m = path ++ t := by
  intro m hm
  obtain ⟨k, _, rfl⟩ := List.mem_map.mp hm
  exact addMsg_shape path _

theorem customOutMsgs_shape (path : String) (custom? : Option (Value → CustomOut))
    (data : Value) : ∀ m ∈ customOutMsgs path custom? data, ∃ t, m = path ++ t := by
  intro m hm
  rcases custom? with _ | hook
  · simp [customOutMsgs] at hm
  · rcases hout : hook data with v | msg
    · rcases v with _ | _ | _ | _ | sv | _ | _ | _ <;>
        simp [customOutMsgs, hout] at hm
      rcases hm with ⟨-, rfl⟩
      exact addMsg_shape path _
    · simp [customOutMsgs, hout] at hm
      subst hm
      exact addMsg_shape path _

theorem minItemsMsgs_shape (path : String) (minItems? : Option Nat) (len : Nat) :
    ∀ m ∈ minItemsMsgs path minItems? len, ∃ t, m = path ++ t := by
  intro m hm
  rcases minItems? with _ | n
  · simp [minItemsMsgs] at hm
  · simp only [minItemsMsgs] at hm
    split at hm
    · simp at hm
      subst hm
      exact addMsg_shape path _
    · simp at hm

theorem anyOfWarnings_shape (path : String) (results : List VResult) (i : Nat) :
    ∀ m ∈ anyOfWarnings path results i, ∃ t, m = path ++ t := by
  intro m hm
  rw [anyOfWarnings_eq] at hm
  rw [List.mem_flatten] at hm
  obtain ⟨l, hl, hml⟩ := hm
  obtain ⟨q, _, rfl⟩ := List.mem_map.mp hl
  obtain ⟨e, _, rfl⟩ := List.mem_map.mp hml
  exact addMsg_shape path _

/-- Main invariant, proved by the functional induction of the matcher:
every message produced by a call carries that call's `path` as a
prefix (recursive calls only ever extend the path). -/
theorem validate_msgs_shape (rtest : String → String → Bool) :
    ∀ (data : Value) (schema : Schema) (path : String),
      MsgsFrom (validateAgainstSchema rtest data schema path) path := by
  refine validateAgainstSchema.induct rtest
    (fun d s path => MsgsFrom (validateAgainstSchema rtest d s path) path)
    (fun elems isch path i => MsgsFrom (validateItems rtest elems isch path i) path)
    (fun entries props path => MsgsFrom (validateEntries rtest entries props path) path)
    (fun d alts path => ∀ r ∈ validateAlts rtest d alts path, MsgsFrom r path)
    ?_ ?_ ?_ ?_ ?_ ?_ ?_ ?_ ?_ ?_ ?_ ?_ ?_ ?_ ?_ ?_
  · -- anyOf, some alternative passes
    intro data path ty props req custom? items? minItems? pat? alts results hany ih
    rw [validate_anyOf_def]
    simp only [hany, if_true]
    constructor
    · intro m hm
      simp at hm
    · intro m hm
      rcases hfind : results.find? (fun r => r.errors.isEmpty) with _ | r
      · rw [hfind] at hm
        simp at hm
      · rw [hfind] at hm
        simp only [Option.getD_some] at hm
        exact (ih r (List.mem_of_find?_eq_some hfind)).2 m hm
  · -- anyOf, no alternative passes
    intro data path ty props req custom? items? minItems? pat? alts results hany ih
    have hall : ∀ r ∈ validateAlts rtest data alts path, r.errors ≠ [] := by
      intro r hr hnil
      exact hany (List.any_eq_true.mpr ⟨r, hr, by simp [hnil]⟩)
    rw [validate_anyOf_fail rtest data alts ty props req custom? items? minItems? pat?
      path hall]
    constructor
    · intro m hm
      simp only [List.mem_singleton] at hm
      subst hm
      exact addMsg_shape path _
    · intro m hm
      exact anyOfWarnings_shape path _ 0 m hm
  · -- no anyOf, no type: no checks at all
    intro data path props req custom? items? minItems? pat?
    rw [validateAgainstSchema.eq_def]
    exact ⟨by intro m hm; simp at hm, by intro m hm; simp at hm⟩
  · -- type mismatch
    intro data path props req custom? items? minItems? pat? t s hmis
    rw [validate_type_mismatch rtest data s props req custom? items? minItems? pat?
      path hmis.1 hmis.2]
    constructor
    · intro m hm
      simp only [List.mem_singleton] at hm
      subst hm
      exact addMsg_shape path _
    · intro m hm
      simp at hm
  · -- object branch
    intro data path props req custom? items? minItems? pat? t hcond ih
    have ht : typeOf data = "object" := by
      push_neg at hcond
      exact (hcond (by decide)).symm
    rw [validate_object_eq rtest data props req custom? items? minItems? pat? path ht]
    constructor
    · intro m hm
      simp only [List.mem_append] at hm
      rcases hm with (hm | hm) | hm
      · exact missingKeyMsgs_shape path req data m hm
      · exact ih.1 m hm
      · exact customOutMsgs_shape path custom? data m hm
    · intro m hm
      exact ih.2 m hm
  · -- array branch
    intro data path props req custom? items? minItems? pat? t hcond hne ih
    have ht : typeOf data = "array" := by
      push_neg at hcond
      exact (hcond (by decide)).symm
    rw [validate_array_eq rtest data props req custom? items? minItems? pat? path ht]
    constructor
    · intro m hm
      simp only [List.mem_append] at hm
      rcases hm with hm | hm
      · exact ih.1 m hm
      · exact minItemsMsgs_shape path minItems? _ m hm
    · intro m hm
      exact ih.2 m hm
  · -- string with pattern, test fails
    intro data path props req custom? items? minItems? t p hpat hcond h1 h2
    have ht : typeOf data = "string" := by
      push_neg at hcond
      exact (hcond (by decide)).symm
    rw [validate_string_eq rtest data props req custom? items? minItems? (some p)
      path ht]
    simp only [if_pos hpat]
    constructor
    · intro m hm
      simp only [List.mem_singleton] at hm
      subst hm
      exact addMsg_shape path _
    · intro m hm
      simp at hm
  · -- string with pattern, test passes
    intro data path props req custom? items? minItems? t p hpat hcond h1 h2
    have ht : typeOf data = "string" := by
      push_neg at hcond
      exact (hcond (by decide)).symm
    rw [validate_string_eq rtest data props req custom? items? minItems? (some p)
      path ht]
    simp only [if_neg hpat]
    exact ⟨by intro m hm; simp at hm, by intro m hm; simp at hm⟩
  · -- string without pattern
    intro data path props req custom? items? minItems? t hcond h1 h2
    have ht : typeOf data = "string" := by
      push_neg at hcond
      exact (hcond (by decide)).symm
    rw [validate_string_eq rtest data props req custom? items? minItems? none path ht]
    exact ⟨by intro m hm; simp at hm, by intro m hm; simp at hm⟩
  · -- some other type tag, equal to the computed one: no structural check
    intro data path props req custom? items? minItems? pat? t s hcond h1 h2 h3
    rw [validate_other_eq rtest data s props req custom? items? minItems? pat? path
      hcond h1 h2 h3]
    exact ⟨by intro m hm; simp at hm, by intro m hm; simp at hm⟩
  · -- items: nil
    intro isch path i
    rw [validateItems]
    exact ⟨by intro m hm; simp at hm, by intro m hm; simp at hm⟩
  · -- items: cons
    intro isch path i x rest ih1 ih2
    rw [validateItems]
    constructor
    · intro m hm
      simp only [List.mem_append] at hm
      rcases hm with hm | hm
      · exact shape_trans (ih1.1 m hm) (extendsSelf3 path "[" (toString i) "]")
      · exact ih2.1 m hm
    · intro m hm
      simp only [List.mem_append] at hm
      rcases hm with hm | hm
      · exact shape_trans (ih1.2 m hm) (extendsSelf3 path "[" (toString i) "]")
      · exact ih2.2 m hm
  · -- entries: nil
    intro props path
    rw [validateEntries]
    exact ⟨by intro m hm; simp at hm, by intro m hm; simp at hm⟩
  · -- entries: cons
    intro props path k v rest ih1 ih2
    rw [validateEntries]
    have hhead : MsgsFrom
        (match lookupProp props k with
          | some cs => validateAgainstSchema rtest v cs
              (if path = "" then k else path ++ "." ++ k)
          | none => ⟨[], []⟩) path := by
      rcases hl : lookupProp props k with _ | cs
      · exact ⟨by intro m hm; simp at hm, by intro m hm; simp at hm⟩
      · have hch := ih1 cs
        by_cases hp : path = ""
        · subst hp
          exact ⟨fun m _ => ⟨m, rfl⟩, fun m _ => ⟨m, rfl⟩⟩
        · rw [dif_neg hp] at hch
          rw [if_neg hp]
          exact ⟨fun m hm => shape_trans (hch.1 m hm) (extendsSelf2 path "." k),
            fun m hm => shape_trans (hch.2 m hm) (extendsSelf2 path "." k)⟩
    have hh := hhead
    constructor
    · intro m hm
      simp only [List.mem_append] at hm
      rcases hm with hm | hm
      · exact hh.1 m hm
      · exact ih2.1 m hm
    · intro m hm
      simp only [List.mem_append] at hm
      rcases hm with hm | hm
      · exact hh.2 m hm
      · exact ih2.2 m hm
  · -- alternatives: nil
    intro data path r hr
    rw [validateAlts] at hr
    simp at hr
  · -- alternatives: cons
    intro data path s rest ih1 ih2 r hr
    rw [validateAlts] at hr
    rcases List.mem_cons.mp hr with rfl | hr
    · exact ih1
    · exact ih2 r hr

/-! ## Statelessness: simulation between the two embeddings -/

theorem validateSt_anyOf_def {σ : Type} (rtest : String → String → Bool)
    (data : Value) (alts : List (SchemaG (HookSt σ))) (ty : Option String)
    (props : List (String × SchemaG (HookSt σ))) (req : List String)
    (custom? : Option (HookSt σ)) (items? : Option (SchemaG (HookSt σ)))
    (minItems? : Option Nat) (pat? : Option String) (path : String) (st : σ) :
    validateAgainstSchemaSt rtest data
        (.mk (some alts) ty props req custom? items? minItems? pat?) path st
      = (let rs := validateAltsSt rtest data alts path st
         if rs.1.any (fun r => r.errors.isEmpty) then
           (⟨[], ((rs.1.find? (fun r => r.errors.isEmpty)).getD ⟨[], []⟩).warnings⟩, rs.2)
         else
           (⟨[addMsg path "Value must match one of the allowed shapes."],
             anyOfWarnings path rs.1 0⟩, rs.2)) := by
  rw [validateAgainstSchemaSt]

theorem validateSt_type_mismatch {σ : Type} (rtest : String → String → Bool)
    (data : Value) (s : String) (props : List (String × SchemaG (HookSt σ)))
    (req : List String) (custom? : Option (HookSt σ))
    (items? : Option (SchemaG (HookSt σ))) (minItems? : Option Nat)
    (pat? : Option String) (path : String) (st : σ)
    (h1 : s ≠ "") (h2 : s ≠ typeOf data) :
    validateAgainstSchemaSt rtest data
        (.mk none (some s) props req custom? items? minItems? pat?) path st
      = (⟨[addMsg path ("Expected type \"" ++ s ++ "\" but got \"" ++ typeOf data
            ++ "\".")], []⟩, st) := by
  rw [validateAgainstSchemaSt.eq_def]
  simp only [dif_pos (And.intro h1 h2)]

theorem validateSt_no_type {σ : Type} (rtest : String → String → Bool)
    (data : Value) (props : List (String × SchemaG (HookSt σ))) (req : List String)
    (custom? : Option (HookSt σ)) (items? : Option (SchemaG (HookSt σ)))
    (minItems? : Option Nat) (pat? : Option String) (path : String) (st : σ) :
    validateAgainstSchemaSt rtest data
        (.mk none none props req custom? items? minItems? pat?) path st
      = (⟨[], []⟩, st) := by
  rw [validateAgainstSchemaSt.eq_def]

theorem validate_no_type (rtest : String → String → Bool) (data : Value)
    (props : List (String × Schema)) (req : List String)
    (custom? : Option (Value → CustomOut)) (items? : Option Schema)
    (minItems? : Option Nat) (pat? : Option String) (path : String) :
    validateAgainstSchema rtest data
        (.mk none none props req custom? items? minItems? pat?) path
      = ⟨[], []⟩ := by
  rw [validateAgainstSchema.eq_def]

theorem validateSt_object_eq {σ : Type} (rtest : String → String → Bool)
    (data : Value) (props : List (String × SchemaG (HookSt σ))) (req : List String)
    (custom? : Option (HookSt σ)) (items? : Option (SchemaG (HookSt σ)))
    (minItems? : Option Nat) (pat? : Option String) (path : String) (st : σ)
    (h : typeOf data = "object") :
    validateAgainstSchemaSt rtest data
        (.mk none (some "object") props req custom? items? minItems? pat?) path st
      = (⟨missingKeyMsgs path req data
            ++ (validateEntriesSt rtest data.entriesJS props path st).1.errors
            ++ (customOutMsgsSt path custom? data
                 (validateEntriesSt rtest data.entriesJS props path st).2).1,
          (validateEntriesSt rtest data.entriesJS props path st).1.warnings⟩,
         (customOutMsgsSt path custom? data
           (validateEntriesSt rtest data.entriesJS props path st).2).2) := by
  rw [validateAgainstSchemaSt.eq_def]
  have hcond : ¬(("object" : String) ≠ "" ∧ ("object" : String) ≠ typeOf data) := by
    rw [h]
    simp
  simp only [dif_neg hcond, dif_pos rfl]
  simp

theorem validateSt_array_eq {σ : Type} (rtest : String → String → Bool)
    (data : Value) (props : List (String × SchemaG (HookSt σ))) (req : List String)
    (custom? : Option (HookSt σ)) (items? : Option (SchemaG (HookSt σ)))
    (minItems? : Option Nat) (pat? : Option String) (path : String) (st : σ)
    (h : typeOf data = "array") :
    validateAgainstSchemaSt rtest data
        (.mk none (some "array") props req custom? items? minItems? pat?) path st
      = (⟨(validateItemsSt rtest data.elemsJS (items?.getD .empty) path 0 st).1.errors
            ++ minItemsMsgs path minItems? data.elemsJS.length,
          (validateItemsSt rtest data.elemsJS (items?.getD .empty) path 0 st).1.warnings⟩,
         (validateItemsSt rtest data.elemsJS (items?.getD .empty) path 0 st).2) := by
  rw [validateAgainstSchemaSt.eq_def]
  have hcond : ¬(("array" : String) ≠ "" ∧ ("array" : String) ≠ typeOf data) := by
    rw [h]
    simp
  have hobj : ¬(("array" : String) = "object") := by decide
  simp only [dif_neg hcond, dif_neg hobj, dif_pos rfl]
  simp

theorem validateSt_string_eq {σ : Type} (rtest : String → String → Bool)
    (data : Value) (props : List (String × SchemaG (HookSt σ))) (req : List String)
    (custom? : Option (HookSt σ)) (items? : Option (SchemaG (HookSt σ)))
    (minItems? : Option Nat) (pat? : Option String) (path : String) (st : σ)
    (h : typeOf data = "string") :
    validateAgainstSchemaSt rtest data
        (.mk none (some "string") props req custom? items? minItems? pat?) path st
      = ((match pat? with
          | some p =>
            if p ≠ "" ∧ ¬ rtest p data.strJS then
              ⟨[addMsg path ("String does not match pattern " ++ p ++ ".")], []⟩
            else ⟨[], []⟩
          | none => ⟨[], []⟩), st) := by
  rw [validateAgainstSchemaSt.eq_def]
  have hcond : ¬(("string" : String) ≠ "" ∧ ("string" : String) ≠ typeOf data) := by
    rw [h]
    simp
  have h1 : ¬(("string" : String) = "object") := by decide
  have h2 : ¬(("string" : String) = "array") := by decide
  simp only [dif_neg hcond, dif_neg h1, dif_neg h2, dif_pos rfl]
  simp

theorem validateSt_other_eq {σ : Type} (rtest : String → String → Bool)
    (data : Value) (s : String) (props : List (String × SchemaG (HookSt σ)))
    (req : List String) (custom? : Option (HookSt σ))
    (items? : Option (SchemaG (HookSt σ))) (minItems? : Option Nat)
    (pat? : Option String) (path : String) (st : σ)
    (hmis : ¬(s ≠ "" ∧ s ≠ typeOf data)) (h1 : s ≠ "object") (h2 : s ≠ "array")
    (h3 : s ≠ "string") :
    validateAgainstSchemaSt rtest data
        (.mk none (some s) props req custom? items? minItems? pat?) path st
      = (⟨[], []⟩, st) := by
  rw [validateAgainstSchemaSt.eq_def]
  simp only [dif_neg hmis, dif_neg h1, dif_neg h2, dif_neg h3]

theorem mapHooks_mk {H₁ H₂ : Type} (f : H₁ → H₂)
    (anyOf? : Option (List (SchemaG H₁))) (ty : Option String)
    (props : List (String × SchemaG H₁)) (req : List String)
    (custom? : Option H₁) (items? : Option (SchemaG H₁)) (minItems? : Option Nat)
    (pat? : Option String) :
    SchemaG.mapHooks f (.mk anyOf? ty props req custom? items? minItems? pat?)
      = .mk (anyOf?.map (mapHooksList f)) ty (mapHooksProps f props) req
          (custom?.map f) (items?.map (SchemaG.mapHooks f)) minItems? pat? := by
  rw [SchemaG.mapHooks.eq_def]
  cases anyOf? <;> cases items? <;> rfl

theorem mapHooks_empty {H₁ H₂ : Type} (f : H₁ → H₂) :
    (SchemaG.empty : SchemaG H₁).mapHooks f = SchemaG.empty := by
  rw [SchemaG.empty, mapHooks_mk]
  simp [mapHooksProps, SchemaG.empty]

theorem lookupProp_mapHooksProps {H₁ H₂ : Type} (f : H₁ → H₂)
    (props : List (String × SchemaG H₁)) (k : String) :
    lookupProp (mapHooksProps f props) k
      = (lookupProp props k).map (fun s => s.mapHooks f) := by
  induction props with
  | nil => simp [mapHooksProps, lookupProp]
  | cons kv rest ih =>
      obtain ⟨k2, s2⟩ := kv
      rw [mapHooksProps]
      by_cases hk : k2 = k
      · subst hk
        simp [lookupProp, List.find?_cons]
      · have hbeq : (k2 == k) = false := beq_eq_false_iff_ne.mpr hk
        simp only [lookupProp, List.find?_cons, hbeq] at ih ⊢
        exact ih

theorem customOutMsgsSt_lift {σ : Type} (path : String)
    (custom? : Option (Value → CustomOut)) (data : Value) (st : σ) :
    customOutMsgsSt path (custom?.map (liftHook σ)) data st
      = (customOutMsgs path custom? data, st) := by
  cases custom? with
  | none => rfl
  | some hook =>
      rcases h : hook data with v | msg
      · rcases v <;> simp [customOutMsgsSt, customOutMsgs, liftHook, h]
      · simp [customOutMsgsSt, customOutMsgs, liftHook, h]

theorem mapHooks_items_getD {H₁ H₂ : Type} (f : H₁ → H₂)
    (items? : Option (SchemaG H₁)) :
    (items?.map (SchemaG.mapHooks f)).getD SchemaG.empty
      = (items?.getD SchemaG.empty).mapHooks f := by
  cases items? with
  | none => simp [mapHooks_empty]
  | some s => simp

/-- Simulation: on a schema whose hooks are lifted pure functions, the
state-instrumented matcher returns the pure matcher's result and
leaves the world state untouched. -/
theorem validateSt_lift_eq {σ : Type} (rtest : String → String → Bool) :
    ∀ (data : Value) (schema : Schema) (path : String) (st : σ),
      validateAgainstSchemaSt rtest data (schema.mapHooks (liftHook σ)) path st
        = (validateAgainstSchema rtest data schema path, st) := by
  refine validateAgainstSchema.induct rtest
    (fun d s path => ∀ st : σ,
      validateAgainstSchemaSt rtest d (s.mapHooks (liftHook σ)) path st
        = (validateAgainstSchema rtest d s path, st))
    (fun elems isch path i => ∀ st : σ,
      validateItemsSt rtest elems (isch.mapHooks (liftHook σ)) path i st
        = (validateItems rtest elems isch path i, st))
    (fun entries props path => ∀ st : σ,
      validateEntriesSt rtest entries (mapHooksProps (liftHook σ) props) path st
        = (validateEntries rtest entries props path, st))
    (fun d alts path => ∀ st : σ,
      validateAltsSt rtest d (mapHooksList (liftHook σ) alts) path st
        = (validateAlts rtest d alts path, st))
    ?_ ?_ ?_ ?_ ?_ ?_ ?_ ?_ ?_ ?_ ?_ ?_ ?_ ?_ ?_ ?_
  · -- anyOf, some alternative passes
    intro data path ty props req custom? items? minItems? pat? alts results hany ih st
    rw [mapHooks_mk]
    simp only [Option.map_some']
    rw [validateSt_anyOf_def, validate_anyOf_def]
    simp only [ih st]
    by_cases hc : (validateAlts rtest data alts path).any
        (fun r => r.errors.isEmpty) = true <;> simp [hc]
  · -- anyOf, no alternative passes
    intro data path ty props req custom? items? minItems? pat? alts results hany ih st
    rw [mapHooks_mk]
    simp only [Option.map_some']
    rw [validateSt_anyOf_def, validate_anyOf_def]
    simp only [ih st]
    by_cases hc : (validateAlts rtest data alts path).any
        (fun r => r.errors.isEmpty) = true <;> simp [hc]
  · -- no anyOf, no type
    intro data path props req custom? items? minItems? pat? st
    rw [mapHooks_mk]
    simp only [Option.map_none']
    rw [validateSt_no_type, validate_no_type]
  · -- type mismatch
    intro data path props req custom? items? minItems? pat? t s hmis st
    rw [mapHooks_mk]
    simp only [Option.map_none']
    rw [validateSt_type_mismatch rtest data s (mapHooksProps (liftHook σ) props) req
      (custom?.map (liftHook σ)) _ minItems? pat? path st hmis.1 hmis.2]
    rw [validate_type_mismatch rtest data s props req custom? items? minItems? pat?
      path hmis.1 hmis.2]
  · -- object branch
    intro data path props req custom? items? minItems? pat? t hcond ih st
    have ht : typeOf data = "object" := by
      push_neg at hcond
      exact (hcond (by decide)).symm
    rw [mapHooks_mk]
    simp only [Option.map_none']
    rw [validateSt_object_eq rtest data (mapHooksProps (liftHook σ) props) req
      (custom?.map (liftHook σ)) _ minItems? pat? path st ht]
    rw [validate_object_eq rtest data props req custom? items? minItems? pat? path ht]
    simp only [ih st, customOutMsgsSt_lift]
  · -- array branch
    intro data path props req custom? items? minItems? pat? t hcond hne ih st
    have ht : typeOf data = "array" := by
      push_neg at hcond
      exact (hcond (by decide)).symm
    rw [mapHooks_mk]
    simp only [Option.map_none']
    rw [validateSt_array_eq rtest data (mapHooksProps (liftHook σ) props) req
      (custom?.map (liftHook σ)) _ minItems? pat? path st ht]
    rw [validate_array_eq rtest data props req custom? items? minItems? pat? path ht]
    rw [mapHooks_items_getD]
    simp only [ih st]
  · -- string with pattern, test fails
    intro data path props req custom? items? minItems? t p hpat hcond h1 h2 st
    have ht : typeOf data = "string" := by
      push_neg at hcond
      exact (hcond (by decide)).symm
    rw [mapHooks_mk]
    simp only [Option.map_none']
    rw [validateSt_string_eq rtest data (mapHooksProps (liftHook σ) props) req
      (custom?.map (liftHook σ)) _ minItems? (some p) path st ht]
    rw [validate_string_eq rtest data props req custom? items? minItems? (some p)
      path ht]
  · -- string with pattern, test passes
    intro data path props req custom? items? minItems? t p hpat hcond h1 h2 st
    have ht : typeOf data = "string" := by
      push_neg at hcond
      exact (hcond (by decide)).symm
    rw [mapHooks_mk]
    simp only [Option.map_none']
    rw [validateSt_string_eq rtest data (mapHooksProps (liftHook σ) props) req
      (custom?.map (liftHook σ)) _ minItems? (some p) path st ht]
    rw [validate_string_eq rtest data props req custom? items? minItems? (some p)
      path ht]
  · -- string without pattern
    intro data path props req custom? items? minItems? t hcond h1 h2 st
    have ht : typeOf data = "string" := by
      push_neg at hcond
      exact (hcond (by decide)).symm
    rw [mapHooks_mk]
    simp only [Option.map_none']
    rw [validateSt_string_eq rtest data (mapHooksProps (liftHook σ) props) req
      (custom?.map (liftHook σ)) _ minItems? none path st ht]
    rw [validate_string_eq rtest data props req custom? items? minItems? none path ht]
  · -- other type tag
    intro data path props req custom? items? minItems? pat? t s hcond h1 h2 h3 st
    rw [mapHooks_mk]
    simp only [Option.map_none']
    rw [validateSt_other_eq rtest data s (mapHooksProps (liftHook σ) props) req
      (custom?.map (liftHook σ)) _ minItems? pat? path st hcond h1 h2 h3]
    rw [validate_other_eq rtest data s props req custom? items? minItems? pat? path
      hcond h1 h2 h3]
  · -- items: nil
    intro isch path i st
    rw [validateItemsSt, validateItems]
  · -- items: cons
    intro isch path i x rest ih1 ih2 st
    rw [validateItemsSt, validateItems]
    simp only [ih1, ih2]
  · -- entries: nil
    intro props path st
    rw [validateEntriesSt, validateEntries]
  · -- entries: cons
    intro props path k v rest ih1 ih2 st
    rw [validateEntriesSt, validateEntries]
    rw [lookupProp_mapHooksProps]
    rcases hl : lookupProp props k with _ | cs
    · simp [ih2]
    · have h1 := ih1 cs
      rw [dite_eq_ite] at h1
      simp [h1, ih2]
  · -- alternatives: nil
    intro data path st
    rw [mapHooksList, validateAltsSt.eq_def, validateAlts]
  · -- alternatives: cons
    intro data path s rest ih1 ih2 st
    rw [mapHooksList, validateAltsSt.eq_def, validateAlts]
    simp only [ih1, ih2]

/-- C9: the matcher is deterministic and stateless.  In the
state-instrumented embedding with (lifted) pure hooks, a second
invocation on the state left by a first invocation returns the same
error and warning sequences, the world state is unchanged, and the
result coincides with the pure embedding's result. -/
theorem claim9_deterministic_stateless (σ : Type) (rtest : String → String → Bool)
    (data : Value) (schema : Schema) (path : String) (st0 : σ) :
    (validateAgainstSchemaSt rtest data (schema.mapHooks (liftHook σ)) path
        ((validateAgainstSchemaSt rtest data (schema.mapHooks (liftHook σ)) path
          st0).2)).1
      = (validateAgainstSchemaSt rtest data (schema.mapHooks (liftHook σ)) path st0).1
    ∧ (validateAgainstSchemaSt rtest data (schema.mapHooks (liftHook σ)) path st0).2
      = st0
    ∧ (validateAgainstSchemaSt rtest data (schema.mapHooks (liftHook σ)) path st0).1
      = validateAgainstSchema rtest data schema path := by
  simp [validateSt_lift_eq]

/-- C10: with a non-empty initial path, every returned error and warning
string begins with that path. -/
theorem claim10_messages_carry_path (rtest : String → String → Bool) (data : Value)
    (schema : Schema) (path : String) (hp : path ≠ "") :
    ∀ m, (m ∈ (validateAgainstSchema rtest data schema path).errors
      ∨ m ∈ (validateAgainstSchema rtest data schema path).warnings) →
    ∃ t, m = path ++ t := by
  intro m hm
  rcases hm with hm | hm
  · exact (validate_msgs_shape rtest data schema path).1 m hm
  · exact (validate_msgs_shape rtest data schema path).2 m hm

/-- Witness for C10: the type-mismatch error produced at path `"p"`
starts with `"p"`. -/
theorem claim10_witness :
    ∃ t, "p: Expected type \"number\" but got \"string\"." = "p" ++ t := by
  apply claim10_messages_carry_path rt0 (.str "x")
    (.mk none (some "number") [] [] none none none none) "p" (by decide)
  left
  rw [validate_type_mismatch rt0 (.str "x") "number" [] [] none none none none "p"
    (by decide) (by decide)]
  decide

end DSValidator
